import Mathlib

/-!
Shallow embedding of the Assembly Line Simulator REST API (`src/api/main.py`).

The SQLite store is modelled as an optional `Store` value: `none` means the
database file does not exist, `some s` gives the two record collections
(`orders`, `station_history`).  Each endpoint handler becomes a pure function
of that state; `HTTPException` outcomes become an `ApiError` value carried in
`Except`.  SQL queries (`ORDER BY ... DESC`, `GROUP BY`, `SUM`, `MAX`,
`LIMIT`) are translated into list operations, and Python `round(x, 2)` into
exact rational rounding (half-to-even, Python's rounding mode).
-/

namespace API

/-- A row of the `orders` table, as exposed by the `OrderRecord` model. -/
structure OrderRecord where
  order_id : String
  customer_name : String
  product : String
  is_completed : Bool
  total_items : Int
  filled_items : Int
  created_at : String
  completed_at : Option String
deriving DecidableEq

/-- A row of the `station_history` table (also the response shape used by
the station endpoints, as in the source `StationRecord` model). -/
structure StationRecord where
  station_name : String
  items_processed : Int
  inventory_remaining : Int
  timestamp : String
deriving DecidableEq

/-- The content of the SQLite database file. -/
structure Store where
  orders : List OrderRecord
  station_history : List StationRecord
deriving DecidableEq

/-- Response model of `GET /stats` (`SimulationStats` in the source);
`completion_rate` is modelled as an exact rational. -/
structure SimulationStats where
  total_orders : Int
  completed_orders : Int
  incomplete_orders : Int
  completion_rate : ℚ
  most_active_station : Option String
deriving DecidableEq

/-- The error outcomes raised by the handlers via `HTTPException`. -/
inductive ApiError where
  | storeUnavailable : ApiError
  | notFound : ApiError
  | executableNotFound : ApiError
  | simulationFailed : String → ApiError
deriving DecidableEq

/-- HTTP status code attached to each `HTTPException` in the source. -/
def statusCode : ApiError → Nat
  | .storeUnavailable => 404
  | .notFound => 404
  | .executableNotFound => 404
  | .simulationFailed _ => 500

/-- `get_db_connection`: raises a 404 `HTTPException` when the database file
does not exist, otherwise yields the connection (here: the store content). -/
def get_db_connection (db : Option Store) : Except ApiError Store :=
  match db with
  | none => .error .storeUnavailable
  | some s => .ok s

/-- SQL `LIMIT ?` semantics: a negative limit returns every row, otherwise at
most `limit` rows are kept. -/
def sqlLimit {α : Type} (limit : Int) (l : List α) : List α :=
  if limit < 0 then l else l.take limit.toNat

/-- `ORDER BY key DESC`: sort by a key, largest key first (SQL leaves the
relative order of equal keys unspecified; insertion sort fixes one). -/
def sortByDesc {α β : Type} [LinearOrder β] (key : α → β) (l : List α) : List α :=
  List.insertionSort (fun a b => key b ≤ key a) l

/-- `GET /orders`: all orders, `ORDER BY created_at DESC LIMIT ?`; empty list
when the database file does not exist. -/
def get_orders (db : Option Store) (limit : Int) : Except ApiError (List OrderRecord) :=
  match db with
  | none => .ok []
  | some s => .ok (sqlLimit limit (sortByDesc (fun o => o.created_at) s.orders))

/-- `GET /orders/completed`: `WHERE is_completed = 1 ORDER BY completed_at
DESC LIMIT ?`; empty list when the database file does not exist. -/
def get_completed_orders (db : Option Store) (limit : Int) :
    Except ApiError (List OrderRecord) :=
  match db with
  | none => .ok []
  | some s =>
      .ok (sqlLimit limit (sortByDesc (fun o => o.completed_at.getD "")
        (s.orders.filter (fun o => o.is_completed))))

/-- `GET /orders/incomplete`: `WHERE is_completed = 0 ORDER BY created_at
DESC LIMIT ?`; empty list when the database file does not exist. -/
def get_incomplete_orders (db : Option Store) (limit : Int) :
    Except ApiError (List OrderRecord) :=
  match db with
  | none => .ok []
  | some s =>
      .ok (sqlLimit limit (sortByDesc (fun o => o.created_at)
        (s.orders.filter (fun o => !o.is_completed))))

/-- `GET /orders/customer/{name}`: `WHERE customer_name = ? ORDER BY
created_at DESC`, no limit; empty list when the database file does not
exist. -/
def get_orders_by_customer (db : Option Store) (customer_name : String) :
    Except ApiError (List OrderRecord) :=
  match db with
  | none => .ok []
  | some s =>
      .ok (sortByDesc (fun o => o.created_at)
        (s.orders.filter (fun o => o.customer_name == customer_name)))

/-- `GET /orders/{order_id}`: goes straight to `get_db_connection` (404 when
the store file is missing), then `fetchone` on `WHERE order_id = ?`; a 404
`NotFound` when no row matches. -/
def get_order (db : Option Store) (order_id : String) : Except ApiError OrderRecord :=
  match get_db_connection db with
  | .error e => .error e
  | .ok s =>
      match s.orders.find? (fun o => o.order_id == order_id) with
      | none => .error .notFound
      | some o => .ok o

/-- Distinct values in first-occurrence order (SQLite `GROUP BY` produces one
output row per distinct group key). -/
def firstDedup : List String → List String
  | [] => []
  | n :: ns => n :: firstDedup (ns.filter (fun m => m != n))
termination_by l => l.length
decreasing_by
  simp only [List.length_cons]
  exact Nat.lt_succ_of_le (List.length_filter_le _ ns)

/-- `SUM(items_processed)` over the group of rows of one station. -/
def sumItems (rows : List StationRecord) (name : String) : Int :=
  ((rows.filter (fun r => r.station_name == name)).map (fun r => r.items_processed)).sum

/-- `MAX(inventory_remaining)` over the group (the source maps a NULL result
to `0` via `row[2] or 0`). -/
def maxInventory (rows : List StationRecord) (name : String) : Int :=
  (((rows.filter (fun r => r.station_name == name)).map
    (fun r => r.inventory_remaining)).max?).getD 0

/-- `MAX(timestamp)` over the group (the source maps a NULL result to `""`
via `row[3] or ""`). -/
def maxTimestamp (rows : List StationRecord) (name : String) : String :=
  (((rows.filter (fun r => r.station_name == name)).map
    (fun r => r.timestamp)).max?).getD ""

/-- The distinct station names of the history, in first-occurrence order. -/
def stationNames (rows : List StationRecord) : List String :=
  firstDedup (rows.map (fun r => r.station_name))

/-- The `GROUP BY station_name ORDER BY SUM(items_processed) DESC` key list. -/
def stationTotalsDesc (rows : List StationRecord) : List String :=
  sortByDesc (fun n => sumItems rows n) (stationNames rows)

/-- The aggregated output row built for one station by `GET /stations`. -/
def stationAgg (rows : List StationRecord) (name : String) : StationRecord :=
  { station_name := name
    items_processed := sumItems rows name
    inventory_remaining := maxInventory rows name
    timestamp := maxTimestamp rows name }

/-- `GET /stations`: grouped per-station aggregates ordered by summed
`items_processed` descending, `LIMIT ?`; empty list when the database file
does not exist. -/
def get_stations (db : Option Store) (limit : Int) :
    Except ApiError (List StationRecord) :=
  match db with
  | none => .ok []
  | some s =>
      .ok (sqlLimit limit
        ((stationTotalsDesc s.station_history).map (stationAgg s.station_history)))

/-- `GET /stations/{name}/history`: `WHERE station_name = ? ORDER BY
timestamp DESC LIMIT ?`; empty list when the database file does not exist. -/
def get_station_history (db : Option Store) (station_name : String) (limit : Int) :
    Except ApiError (List StationRecord) :=
  match db with
  | none => .ok []
  | some s =>
      .ok (sqlLimit limit (sortByDesc (fun r => r.timestamp)
        (s.station_history.filter (fun r => r.station_name == station_name))))

/-- Python `round` to an integer: round half to even. -/
def roundHalfEven (q : ℚ) : ℤ :=
  if q - (⌊q⌋ : ℚ) = 1 / 2 then (if 2 ∣ ⌊q⌋ then ⌊q⌋ else ⌊q⌋ + 1) else round q

/-- Python `round(x, 2)`: round to two decimal places. -/
def pyRound2 (q : ℚ) : ℚ := (roundHalfEven (q * 100) : ℚ) / 100

/-- `SELECT station_name, SUM(items_processed) ... GROUP BY station_name
ORDER BY total DESC LIMIT 1` followed by `fetchone`: the first key of the
ordered group list, if any. -/
def most_active_station (rows : List StationRecord) : Option String :=
  (stationTotalsDesc rows).head?

/-- `GET /stats`: the zero snapshot when the database file does not exist,
otherwise counts, the rounded completion rate, and the most active station. -/
def get_statistics (db : Option Store) : SimulationStats :=
  match db with
  | none =>
      { total_orders := 0, completed_orders := 0, incomplete_orders := 0
        completion_rate := 0, most_active_station := none }
  | some s =>
      let total : Int := s.orders.length
      let completed : Int := (s.orders.filter (fun o => o.is_completed)).length
      let incomplete : Int := total - completed
      let rate : ℚ := if total > 0 then (completed : ℚ) / (total : ℚ) * 100 else 0
      { total_orders := total, completed_orders := completed
        incomplete_orders := incomplete
        completion_rate := pyRound2 rate
        most_active_station := most_active_station s.station_history }

/-- Python `s.split("/")` on the character list of `s`: split at every `'/'`,
keeping empty pieces (so the result is never the empty list). -/
def splitSlash : List Char → List (List Char)
  | [] => [[]]
  | c :: cs =>
      match splitSlash cs with
      | [] => [[]]
      | r :: rs => if c = '/' then [] :: r :: rs else (c :: r) :: rs

/-- Python `s.split("/")[-1]`: the substring after the last `'/'`. -/
def lastComp (s : String) : String :=
  String.mk ((splitSlash s.data).getLastD [])

/-- A directory as its list of path components. -/
def cleanDir (dir : List String) : Prop :=
  ∀ c ∈ dir, c ≠ "" ∧ c ≠ "." ∧ c ≠ ".."

/-- One step of filesystem path resolution: empty components and `"."` are
skipped, `".."` moves to the parent, anything else descends. -/
def normStep (acc : List String) (c : String) : List String :=
  if c = "" ∨ c = "." then acc
  else if c = ".." then acc.dropLast
  else acc ++ [c]

/-- Filesystem resolution of a component list, from the root. -/
def normPath (parts : List String) : List String :=
  parts.foldl normStep []

/-- `data_dir / request_path.split("/")[-1]` as resolved by the filesystem:
the trusted directory with the extracted final component appended, then
normalised. -/
def resolveArg (dataDir : List String) (s : String) : List String :=
  normPath (dataDir ++ [lastComp s])

/-- Outcome of `subprocess.run` on the simulation executable. -/
structure ProcResult where
  returncode : Int
  stdout : String
  stderr : String
deriving DecidableEq

/-- Success payload of `POST /simulation/run`. -/
structure SimulationSuccess where
  status : String
  message : String
  output : String
deriving DecidableEq

/-- `POST /simulation/run` control flow: a 404 `HTTPException` before any
process is spawned when the executable is absent (the process outcome is a
thunk, consulted only otherwise); a 500 carrying stderr on a non-zero exit
code; success carrying stdout on a zero exit code. -/
def run_simulation (exeExists : Bool) (proc : Unit → ProcResult) :
    Except ApiError SimulationSuccess :=
  if exeExists then
    let r := proc ()
    if r.returncode ≠ 0 then .error (.simulationFailed r.stderr)
    else .ok { status := "success", message := "Simulation completed successfully"
               output := r.stdout }
  else .error .executableNotFound

/-! ### General lemmas about the embedded operations -/

theorem sortByDesc_perm {α β : Type} [LinearOrder β] (key : α → β) (l : List α) :
    List.Perm (sortByDesc key l) l :=
  List.perm_insertionSort _ l

theorem mem_sortByDesc {α β : Type} [LinearOrder β] {key : α → β} {l : List α} {x : α} :
    x ∈ sortByDesc key l ↔ x ∈ l :=
  (sortByDesc_perm key l).mem_iff

theorem sortByDesc_pairwise {α β : Type} [LinearOrder β] (key : α → β) (l : List α) :
    List.Pairwise (fun a b => key b ≤ key a) (sortByDesc key l) := by
  haveI : IsTotal α fun a b => key b ≤ key a := ⟨fun a b => le_total (key b) (key a)⟩
  haveI : IsTrans α fun a b => key b ≤ key a := ⟨fun a b c h1 h2 => le_trans h2 h1⟩
  exact List.sorted_insertionSort _ l

theorem sortByDesc_head_max {α β : Type} [LinearOrder β] {key : α → β} {l : List α}
    {h : α} {t : List α} (he : sortByDesc key l = h :: t) :
    h ∈ l ∧ ∀ y ∈ l, key y ≤ key h := by
  have hmem : h ∈ l := by
    have hh : h ∈ sortByDesc key l := by rw [he]; exact List.mem_cons_self _ _
    exact mem_sortByDesc.mp hh
  refine ⟨hmem, fun y hy => ?_⟩
  have hy2 : y ∈ h :: t := by rw [← he]; exact mem_sortByDesc.mpr hy
  rcases List.mem_cons.mp hy2 with rfl | hyt
  · exact le_refl _
  · have hp := sortByDesc_pairwise key l
    rw [he] at hp
    exact (List.pairwise_cons.mp hp).1 y hyt

theorem mem_firstDedup : ∀ (l : List String) (x : String), x ∈ firstDedup l ↔ x ∈ l
  | [], x => by simp [firstDedup]
  | n :: ns, x => by
    rw [firstDedup]
    simp only [List.mem_cons]
    constructor
    · rintro (rfl | hx)
      · exact Or.inl rfl
      · have hx2 := (mem_firstDedup (ns.filter (fun m => m != n)) x).mp hx
        simp only [List.mem_filter, bne_iff_ne] at hx2
        exact Or.inr hx2.1
    · rintro (rfl | hx)
      · exact Or.inl rfl
      · by_cases hxn : x = n
        · exact Or.inl hxn
        · refine Or.inr ((mem_firstDedup _ x).mpr ?_)
          simp [List.mem_filter, bne_iff_ne, hx, hxn]
termination_by l _ => l.length
decreasing_by
  all_goals
    simp only [List.length_cons]
    exact Nat.lt_succ_of_le (List.length_filter_le _ ns)

theorem nodup_firstDedup : ∀ l : List String, (firstDedup l).Nodup
  | [] => by simp [firstDedup]
  | n :: ns => by
    rw [firstDedup]
    refine List.nodup_cons.mpr ⟨fun hmem => ?_, nodup_firstDedup _⟩
    have hn := (mem_firstDedup _ n).mp hmem
    simp [List.mem_filter] at hn
termination_by l => l.length
decreasing_by
  all_goals
    simp only [List.length_cons]
    exact Nat.lt_succ_of_le (List.length_filter_le _ ns)

theorem firstDedup_eq_nil {l : List String} : firstDedup l = [] ↔ l = [] := by
  cases l with
  | nil => simp [firstDedup]
  | cons n ns => simp [firstDedup]

theorem sqlLimit_of_nonneg {α : Type} {limit : Int} (h : 0 ≤ limit) (l : List α) :
    sqlLimit limit l = l.take limit.toNat := by
  simp [sqlLimit, not_lt.mpr h]

theorem length_sqlLimit_le {α : Type} {limit : Int} (h : 0 ≤ limit) (l : List α) :
    (sqlLimit limit l).length ≤ limit.toNat := by
  rw [sqlLimit_of_nonneg h]
  exact List.length_take_le _ l

theorem le_roundHalfEven (q : ℚ) : ⌊q⌋ ≤ roundHalfEven q := by
  unfold roundHalfEven
  split
  · split
    · exact le_refl _
    · omega
  · rw [round_eq]
    exact Int.floor_le_floor (by linarith)

theorem roundHalfEven_le_ceil (q : ℚ) : roundHalfEven q ≤ ⌈q⌉ := by
  unfold roundHalfEven
  split
  · rename_i hhalf
    split
    · exact Int.floor_le_ceil q
    · have h1 : (⌊q⌋ : ℚ) < (⌈q⌉ : ℚ) := by
        have h2 := Int.le_ceil q
        linarith
      have h3 : ⌊q⌋ < ⌈q⌉ := by exact_mod_cast h1
      omega
  · rw [round_eq]
    have h1 : (⌊q + 1 / 2⌋ : ℚ) < (⌈q⌉ : ℚ) + 1 := by
      have h2 := Int.floor_le (q + 1 / 2)
      have h3 := Int.le_ceil q
      linarith
    have h4 : ⌊q + 1 / 2⌋ < ⌈q⌉ + 1 := by exact_mod_cast h1
    omega

theorem pyRound2_nonneg {q : ℚ} (h : 0 ≤ q) : 0 ≤ pyRound2 q := by
  unfold pyRound2
  have h1 : (0 : ℤ) ≤ ⌊q * 100⌋ := Int.floor_nonneg.mpr (by positivity)
  have h2 : (0 : ℤ) ≤ roundHalfEven (q * 100) := le_trans h1 (le_roundHalfEven _)
  have h3 : (0 : ℚ) ≤ (roundHalfEven (q * 100) : ℚ) := by exact_mod_cast h2
  linarith

theorem pyRound2_le_100 {q : ℚ} (h : q ≤ 100) : pyRound2 q ≤ 100 := by
  unfold pyRound2
  have h1 : ⌈q * 100⌉ ≤ (10000 : ℤ) := Int.ceil_le.mpr (by push_cast; linarith)
  have h2 : roundHalfEven (q * 100) ≤ 10000 := le_trans (roundHalfEven_le_ceil _) h1
  have h3 : (roundHalfEven (q * 100) : ℚ) ≤ 10000 := by exact_mod_cast h2
  linarith

theorem splitSlash_ne_nil : ∀ cs : List Char, splitSlash cs ≠ []
  | [] => by simp [splitSlash]
  | c :: cs => by
    rw [splitSlash]
    cases hsp : splitSlash cs with
    | nil => simp
    | cons r rs =>
      by_cases hc : c = '/' <;> simp [hc]

theorem splitSlash_no_slash : ∀ cs : List Char, ∀ p ∈ splitSlash cs, '/' ∉ p
  | [] => by simp [splitSlash]
  | c :: cs => by
    intro p hp
    rw [splitSlash] at hp
    cases hsp : splitSlash cs with
    | nil => exact absurd hsp (splitSlash_ne_nil cs)
    | cons r rs =>
      rw [hsp] at hp
      change p ∈ (if c = '/' then [] :: r :: rs else (c :: r) :: rs) at hp
      by_cases hc : c = '/'
      · rw [if_pos hc] at hp
        rcases List.mem_cons.mp hp with rfl | hp2
        · simp
        · exact splitSlash_no_slash cs p (hsp ▸ hp2)
      · rw [if_neg hc] at hp
        rcases List.mem_cons.mp hp with rfl | hp2
        · intro hmem
          rcases List.mem_cons.mp hmem with heq | hmem2
          · exact hc heq.symm
          · exact splitSlash_no_slash cs r (hsp ▸ List.mem_cons_self r rs) hmem2
        · exact splitSlash_no_slash cs p (hsp ▸ List.mem_cons_of_mem r hp2)

theorem getLastD_mem {α : Type} : ∀ (l : List α) (d : α), l ≠ [] → l.getLastD d ∈ l
  | [], _, h => absurd rfl h
  | [a], d, _ => by simp [List.getLastD]
  | a :: b :: t, d, _ => by
    have hmem := getLastD_mem (b :: t) a (by simp)
    simp only [List.getLastD] at hmem ⊢
    exact List.mem_cons_of_mem a hmem

theorem lastComp_no_slash (s : String) : '/' ∉ (lastComp s).data := by
  unfold lastComp
  show '/' ∉ (splitSlash s.data).getLastD []
  exact splitSlash_no_slash s.data _ (getLastD_mem _ _ (splitSlash_ne_nil s.data))

theorem foldl_normStep_clean (l : List String) : ∀ acc, cleanDir l →
    List.foldl normStep acc l = acc ++ l := by
  induction l with
  | nil => intro acc _; simp
  | cons c cs ih =>
    intro acc h
    have hc := h c (List.mem_cons_self c cs)
    have hcs : cleanDir cs := fun m hm => h m (List.mem_cons_of_mem _ hm)
    have hstep : normStep acc c = acc ++ [c] := by
      simp [normStep, hc.1, hc.2.1, hc.2.2]
    simp only [List.foldl_cons, hstep, ih _ hcs]
    simp

theorem normPath_clean {l : List String} (h : cleanDir l) : normPath l = l := by
  simpa using foldl_normStep_clean l [] h

theorem resolveArg_eq {dataDir : List String} (h : cleanDir dataDir) (s : String) :
    resolveArg dataDir s = normStep dataDir (lastComp s) := by
  unfold resolveArg normPath
  rw [List.foldl_append]
  rw [show List.foldl normStep [] dataDir = dataDir from by
    simpa using foldl_normStep_clean dataDir [] h]
  simp

/-! ### Demonstration store used by the witnesses -/

def demoStore : Store :=
  { orders :=
      [ { order_id := "ord-1", customer_name := "Alice", product := "Widget"
          is_completed := true, total_items := 3, filled_items := 3
          created_at := "2024-01-01 10:00:00", completed_at := some "2024-01-01 10:05:00" }
      , { order_id := "ord-2", customer_name := "Bob", product := "Gadget"
          is_completed := true, total_items := 2, filled_items := 2
          created_at := "2024-01-01 10:01:00", completed_at := some "2024-01-01 10:06:00" }
      , { order_id := "ord-3", customer_name := "Alice", product := "Widget"
          is_completed := false, total_items := 5, filled_items := 1
          created_at := "2024-01-01 10:02:00", completed_at := none } ]
    station_history :=
      [ { station_name := "Cutting", items_processed := 4, inventory_remaining := 9
          timestamp := "2024-01-01 10:00:10" }
      , { station_name := "Welding", items_processed := 1, inventory_remaining := 7
          timestamp := "2024-01-01 10:00:20" }
      , { station_name := "Cutting", items_processed := 3, inventory_remaining := 6
          timestamp := "2024-01-01 10:00:30" } ] }

/-! ### Claims -/

/-- The order collection held by an optional store (empty when the database
file does not exist). -/
def ordersOf : Option Store → List OrderRecord
  | none => []
  | some s => s.orders

/-- C2: for every store state, the snapshot returned by `GET /stats`
satisfies `total_orders = completed_orders + incomplete_orders`, where
`total_orders` counts all order records and `completed_orders` counts the
order records whose `is_completed` flag is true. -/
theorem C2_stats_total_split (db : Option Store) :
    (get_statistics db).total_orders = ((ordersOf db).length : Int) ∧
    (get_statistics db).completed_orders =
      (((ordersOf db).filter (fun o => o.is_completed)).length : Int) ∧
    (get_statistics db).total_orders =
      (get_statistics db).completed_orders + (get_statistics db).incomplete_orders := by
  cases db with
  | none => refine ⟨rfl, rfl, rfl⟩
  | some s =>
    refine ⟨rfl, rfl, ?_⟩
    show (s.orders.length : Int) =
      ((s.orders.filter (fun o => o.is_completed)).length : Int) +
        ((s.orders.length : Int) -
          ((s.orders.filter (fun o => o.is_completed)).length : Int))
    ring

/-- Witness for C2 at the demonstration store (3 orders, 2 completed):
`total = completed + incomplete`. -/
theorem C2_stats_total_split_witness :
    (get_statistics (some demoStore)).total_orders =
      (get_statistics (some demoStore)).completed_orders +
        (get_statistics (some demoStore)).incomplete_orders :=
  (C2_stats_total_split (some demoStore)).2.2

/-- C3: whenever `total_orders > 0`, the `completion_rate` of the snapshot
equals `round(100 * completed_orders / total_orders, 2)` and lies between 0
and 100; when `total_orders = 0` it is exactly 0. -/
theorem C3_completion_rate (db : Option Store) :
    (0 < (get_statistics db).total_orders →
      (get_statistics db).completion_rate =
        pyRound2 (100 * ((get_statistics db).completed_orders : ℚ) /
          ((get_statistics db).total_orders : ℚ)) ∧
      0 ≤ (get_statistics db).completion_rate ∧
      (get_statistics db).completion_rate ≤ 100) ∧
    ((get_statistics db).total_orders = 0 → (get_statistics db).completion_rate = 0) := by
  cases db with
  | none =>
    constructor
    · intro h
      exact absurd h (by simp [get_statistics])
    · intro _
      simp [get_statistics]
  | some s =>
    have htot : (get_statistics (some s)).total_orders = (s.orders.length : Int) := rfl
    have hcmp : (get_statistics (some s)).completed_orders =
        ((s.orders.filter (fun o => o.is_completed)).length : Int) := rfl
    set t : Int := (s.orders.length : Int) with ht
    set c : Int := ((s.orders.filter (fun o => o.is_completed)).length : Int) with hc
    have hrate : (get_statistics (some s)).completion_rate =
        pyRound2 (if 0 < t then (c : ℚ) / (t : ℚ) * 100 else 0) := rfl
    constructor
    · intro htotal
      rw [htot] at htotal
      have hct : c ≤ t := by
        rw [ht, hc]
        exact_mod_cast List.length_filter_le _ s.orders
      have hc0 : (0 : Int) ≤ c := by rw [hc]; exact_mod_cast Nat.zero_le _
      have ht0 : (0 : ℚ) < (t : ℚ) := by exact_mod_cast htotal
      have hc0q : (0 : ℚ) ≤ (c : ℚ) := by exact_mod_cast hc0
      have hctq : (c : ℚ) ≤ (t : ℚ) := by exact_mod_cast hct
      have hval : (c : ℚ) / (t : ℚ) * 100 = 100 * (c : ℚ) / (t : ℚ) := by ring
      have hq0 : 0 ≤ (c : ℚ) / (t : ℚ) * 100 := by positivity
      have hq100 : (c : ℚ) / (t : ℚ) * 100 ≤ 100 := by
        have hdiv : (c : ℚ) / (t : ℚ) ≤ 1 := (div_le_one ht0).mpr hctq
        linarith
      refine ⟨?_, ?_, ?_⟩
      · rw [hrate, if_pos htotal, htot, hcmp, hval]
      · rw [hrate, if_pos htotal]
        exact pyRound2_nonneg hq0
      · rw [hrate, if_pos htotal]
        exact pyRound2_le_100 hq100
    · intro hzero
      rw [htot] at hzero
      rw [hrate, if_neg (by omega)]
      norm_num [pyRound2, roundHalfEven, round_eq]

/-- Witness for C3 at the three-order demonstration store (two completed,
one incomplete): the rate is between 0 and 100. -/
theorem C3_completion_rate_witness :
    0 ≤ (get_statistics (some demoStore)).completion_rate ∧
    (get_statistics (some demoStore)).completion_rate ≤ 100 :=
  ⟨((C3_completion_rate (some demoStore)).1 (by decide)).2.1,
   ((C3_completion_rate (some demoStore)).1 (by decide)).2.2⟩

/-- C4: when the store file does not exist, every list operation returns an
empty sequence rather than an error, and `GET /stats` returns the zero
snapshot with `most_active_station` absent. -/
theorem C4_missing_store_defaults (limit : Int) (name : String) :
    get_orders none limit = .ok [] ∧
    get_completed_orders none limit = .ok [] ∧
    get_incomplete_orders none limit = .ok [] ∧
    get_orders_by_customer none name = .ok [] ∧
    get_stations none limit = .ok [] ∧
    get_station_history none name limit = .ok [] ∧
    get_statistics none =
      { total_orders := 0, completed_orders := 0, incomplete_orders := 0
        completion_rate := 0, most_active_station := none } :=
  ⟨rfl, rfl, rfl, rfl, rfl, rfl, rfl⟩

/-- Witness for C4 at a concrete limit and customer name. -/
theorem C4_missing_store_defaults_witness :
    get_orders none 5 = .ok [] ∧
    get_statistics none =
      { total_orders := 0, completed_orders := 0, incomplete_orders := 0
        completion_rate := 0, most_active_station := none } :=
  ⟨(C4_missing_store_defaults 5 "Alice").1,
   (C4_missing_store_defaults 5 "Alice").2.2.2.2.2.2⟩

/-- C5: `GET /orders/{order_id}` is asymmetric with the list operations: a
missing store file fails with `StoreUnavailable` surfaced as a 404 (never an
empty result); an existing store without the requested id fails with
`NotFound`; an order is returned only when one with that id is present. -/
theorem C5_get_order_asymmetry :
    (∀ oid : String,
      get_order none oid = .error .storeUnavailable ∧
      statusCode .storeUnavailable = 404) ∧
    (∀ (s : Store) (oid : String),
      (∀ o ∈ s.orders, o.order_id ≠ oid) →
      get_order (some s) oid = .error .notFound) ∧
    (∀ (s : Store) (oid : String) (r : OrderRecord),
      get_order (some s) oid = .ok r → r ∈ s.orders ∧ r.order_id = oid) := by
  refine ⟨fun oid => ⟨rfl, rfl⟩, ?_, ?_⟩
  · intro s oid h
    have hf : s.orders.find? (fun o => o.order_id == oid) = none := by
      rw [List.find?_eq_none]
      intro o ho
      simpa using h o ho
    simp [get_order, get_db_connection, hf]
  · intro s oid r hr
    simp only [get_order, get_db_connection] at hr
    cases hf : s.orders.find? (fun o => o.order_id == oid) with
    | none => rw [hf] at hr; exact absurd hr (by simp)
    | some o =>
      rw [hf] at hr
      have hor : o = r := by simpa using hr
      subst hor
      refine ⟨List.mem_of_find?_eq_some hf, ?_⟩
      have hp := List.find?_some hf
      simpa using hp

/-- Witness for C5: on the demonstration store, an unknown id yields the
`NotFound` error. -/
theorem C5_get_order_asymmetry_witness :
    get_order (some demoStore) "ord-9" = .error .notFound :=
  C5_get_order_asymmetry.2.1 demoStore "ord-9" (by decide)

/-- C6: `POST /simulation/run` fails with `ExecutableNotFound` (a 404) and
consults no process outcome when the executable is absent; with the
executable present, a non-zero exit code fails with `SimulationFailed`
carrying the captured stderr (a 500), and a zero exit code returns success
carrying the captured stdout. -/
theorem C6_run_simulation_outcomes :
    (∀ p q : Unit → ProcResult,
      run_simulation false p = .error .executableNotFound ∧
      run_simulation false p = run_simulation false q ∧
      statusCode .executableNotFound = 404) ∧
    (∀ p : Unit → ProcResult, (p ()).returncode ≠ 0 →
      run_simulation true p = .error (.simulationFailed (p ()).stderr) ∧
      statusCode (.simulationFailed (p ()).stderr) = 500) ∧
    (∀ p : Unit → ProcResult, (p ()).returncode = 0 →
      run_simulation true p =
        .ok { status := "success", message := "Simulation completed successfully"
              output := (p ()).stdout }) := by
  refine ⟨fun p q => ⟨rfl, rfl, rfl⟩, ?_, ?_⟩
  · intro p h
    exact ⟨by simp [run_simulation, h], rfl⟩
  · intro p h
    simp [run_simulation, h]

/-- Witness for C6: a concrete failing process outcome surfaces its stderr,
and a concrete succeeding one its stdout. -/
theorem C6_run_simulation_outcomes_witness :
    run_simulation true (fun _ => { returncode := 1, stdout := "", stderr := "boom" }) =
      .error (.simulationFailed "boom") ∧
    run_simulation true (fun _ => { returncode := 0, stdout := "done", stderr := "" }) =
      .ok { status := "success", message := "Simulation completed successfully"
            output := "done" } :=
  ⟨(C6_run_simulation_outcomes.2.1
      (fun _ => { returncode := 1, stdout := "", stderr := "boom" }) (by decide)).1,
   C6_run_simulation_outcomes.2.2
      (fun _ => { returncode := 0, stdout := "done", stderr := "" }) (by decide)⟩

/-- FastAPI query binding for `limit: int = 100`: an omitted parameter means
the declared default. -/
def boundLimit (limit : Option Int) : Int := limit.getD 100

/-- `GET /orders` with its optional `limit` query parameter. -/
def ordersEndpoint (db : Option Store) (limit : Option Int) :
    Except ApiError (List OrderRecord) :=
  get_orders db (boundLimit limit)

/-- `GET /orders/completed` with its optional `limit` query parameter. -/
def completedOrdersEndpoint (db : Option Store) (limit : Option Int) :
    Except ApiError (List OrderRecord) :=
  get_completed_orders db (boundLimit limit)

/-- `GET /orders/incomplete` with its optional `limit` query parameter. -/
def incompleteOrdersEndpoint (db : Option Store) (limit : Option Int) :
    Except ApiError (List OrderRecord) :=
  get_incomplete_orders db (boundLimit limit)

/-- `GET /stations` with its optional `limit` query parameter. -/
def stationsEndpoint (db : Option Store) (limit : Option Int) :
    Except ApiError (List StationRecord) :=
  get_stations db (boundLimit limit)

/-- `GET /stations/{name}/history` with its optional `limit` query
parameter. -/
def stationHistoryEndpoint (db : Option Store) (name : String) (limit : Option Int) :
    Except ApiError (List StationRecord) :=
  get_station_history db name (boundLimit limit)

theorem length_sqlLimit_100 {α : Type} (l : List α) : (sqlLimit 100 l).length ≤ 100 := by
  have h := length_sqlLimit_le (by norm_num : (0 : Int) ≤ 100) l
  simpa using h

/-- C10: every list endpoint with a `limit` parameter defaults it to 100
when the caller omits it, and such an unqualified call returns at most 100
records. -/
theorem C10_default_limit (db : Option Store) (name : String) :
    (ordersEndpoint db none = get_orders db 100 ∧
      ∃ l, ordersEndpoint db none = .ok l ∧ l.length ≤ 100) ∧
    (completedOrdersEndpoint db none = get_completed_orders db 100 ∧
      ∃ l, completedOrdersEndpoint db none = .ok l ∧ l.length ≤ 100) ∧
    (incompleteOrdersEndpoint db none = get_incomplete_orders db 100 ∧
      ∃ l, incompleteOrdersEndpoint db none = .ok l ∧ l.length ≤ 100) ∧
    (stationsEndpoint db none = get_stations db 100 ∧
      ∃ l, stationsEndpoint db none = .ok l ∧ l.length ≤ 100) ∧
    (stationHistoryEndpoint db name none = get_station_history db name 100 ∧
      ∃ l, stationHistoryEndpoint db name none = .ok l ∧ l.length ≤ 100) := by
  cases db with
  | none =>
    refine ⟨⟨rfl, [], rfl, by simp⟩, ⟨rfl, [], rfl, by simp⟩, ⟨rfl, [], rfl, by simp⟩,
      ⟨rfl, [], rfl, by simp⟩, ⟨rfl, [], rfl, by simp⟩⟩
  | some s =>
    refine ⟨⟨rfl, _, rfl, length_sqlLimit_100 _⟩, ⟨rfl, _, rfl, length_sqlLimit_100 _⟩,
      ⟨rfl, _, rfl, length_sqlLimit_100 _⟩, ⟨rfl, _, rfl, length_sqlLimit_100 _⟩,
      ⟨rfl, _, rfl, length_sqlLimit_100 _⟩⟩

/-- Witness for C10 at the demonstration store: the unqualified call is the
call with limit 100. -/
theorem C10_default_limit_witness :
    ordersEndpoint (some demoStore) none = get_orders (some demoStore) 100 :=
  (C10_default_limit (some demoStore) "Cutting").1.1

/-- C1 counterexample: the claim that every resolved launcher argument lies
inside the trusted data directory fails at the concrete input `".."`: its
substring after the last slash is `".."` itself, and the resolved path is
the parent of the data directory. -/
theorem C1_path_containment_counterexample :
    ¬ (["home", "app", "data"] <+: resolveArg ["home", "app", "data"] "..") := by
  intro h
  have hr : resolveArg ["home", "app", "data"] ".." = ["home", "app"] := by decide
  rw [hr] at h
  have hlen := h.length_le
  simp at hlen

/-- C1 (amended): each caller-supplied path is reduced to the substring after
its last slash (a slash-free string) and re-rooted under the data directory;
whenever that substring is not `".."`, the resolved argument stays inside the
directory; in particular `"../../etc/passwd"` reduces to `"passwd"` and
resolves inside the data directory. -/
theorem C1_path_traversal_defense :
    (∀ s : String, '/' ∉ (lastComp s).data) ∧
    (∀ (dataDir : List String) (s : String), cleanDir dataDir → lastComp s ≠ ".." →
      dataDir <+: resolveArg dataDir s) ∧
    lastComp "../../etc/passwd" = "passwd" ∧
    resolveArg ["home", "app", "data"] "../../etc/passwd" =
      ["home", "app", "data", "passwd"] := by
  refine ⟨lastComp_no_slash, ?_, by decide, by decide⟩
  intro dataDir s hclean hdd
  rw [resolveArg_eq hclean]
  unfold normStep
  by_cases h1 : lastComp s = "" ∨ lastComp s = "."
  · rw [if_pos h1]
  · rw [if_neg h1, if_neg hdd]
    exact List.prefix_append _ _

/-- Witness for C1 (amended): the path-traversal attempt from the spec stays
inside a concrete clean data directory. -/
theorem C1_path_traversal_defense_witness :
    ["home", "app", "data"] <+: resolveArg ["home", "app", "data"] "../../etc/passwd" :=
  C1_path_traversal_defense.2.1 ["home", "app", "data"] "../../etc/passwd"
    (by unfold cleanDir; decide) (by decide)

/-- C7: `most_active_station` is absent iff no station-activity records
exist; otherwise, whenever exactly one station has the strictly maximal
summed `items_processed`, it equals that station's name. -/
theorem C7_most_active_station (s : Store) :
    ((get_statistics (some s)).most_active_station = none ↔ s.station_history = []) ∧
    (∀ n : String,
      n ∈ s.station_history.map (fun r => r.station_name) →
      (∀ m ∈ s.station_history.map (fun r => r.station_name),
        m ≠ n → sumItems s.station_history m < sumItems s.station_history n) →
      (get_statistics (some s)).most_active_station = some n) := by
  have hma : (get_statistics (some s)).most_active_station =
      (sortByDesc (fun m => sumItems s.station_history m)
        (stationNames s.station_history)).head? := rfl
  constructor
  · rw [hma, List.head?_eq_none_iff]
    constructor
    · intro h
      have hperm := sortByDesc_perm (fun m => sumItems s.station_history m)
        (stationNames s.station_history)
      rw [h] at hperm
      have hnames : stationNames s.station_history = [] := hperm.symm.eq_nil
      have hmap : s.station_history.map (fun r => r.station_name) = [] :=
        firstDedup_eq_nil.mp hnames
      exact List.map_eq_nil_iff.mp hmap
    · intro h
      rw [h]
      have h0 : stationNames ([] : List StationRecord) = [] := by
        simp [stationNames, firstDedup]
      rw [h0]
      rfl
  · intro n hn hmax
    rw [hma]
    cases he : sortByDesc (fun m => sumItems s.station_history m)
        (stationNames s.station_history) with
    | nil =>
      exfalso
      have hperm := sortByDesc_perm (fun m => sumItems s.station_history m)
        (stationNames s.station_history)
      rw [he] at hperm
      have hnames : stationNames s.station_history = [] := hperm.symm.eq_nil
      have hmap : s.station_history.map (fun r => r.station_name) = [] :=
        firstDedup_eq_nil.mp hnames
      rw [hmap] at hn
      exact absurd hn (List.not_mem_nil n)
    | cons h t =>
      have hhm := sortByDesc_head_max he
      have hh_names : h ∈ s.station_history.map (fun r => r.station_name) :=
        (mem_firstDedup _ _).mp hhm.1
      have hn_names : n ∈ stationNames s.station_history := (mem_firstDedup _ _).mpr hn
      by_cases hne : h = n
      · rw [hne]
        rfl
      · exfalso
        have h1 : sumItems s.station_history h < sumItems s.station_history n :=
          hmax h hh_names hne
        have h2 : sumItems s.station_history n ≤ sumItems s.station_history h :=
          hhm.2 n hn_names
        omega

/-- Witness for C7 at the demonstration store: station `"Cutting"` has the
strictly maximal total (7 over 1) and is reported. -/
theorem C7_most_active_station_witness :
    (get_statistics (some demoStore)).most_active_station = some "Cutting" :=
  (C7_most_active_station demoStore).2 "Cutting" (by decide) (by decide)

/-- C8: `GET /stations` returns one tuple per distinct station name carrying
the summed `items_processed`, the maximal `inventory_remaining` and the
maximal `timestamp` of that station's records, ordered by the summed
`items_processed` descending and truncated to at most `limit` tuples. -/
theorem C8_get_stations (s : Store) (limit : Int) (hl : 0 ≤ limit) :
    ∃ res, get_stations (some s) limit = .ok res ∧
      res.length = min limit.toNat (stationNames s.station_history).length ∧
      (res.map (fun r => r.station_name)).Nodup ∧
      (∀ r ∈ res,
        r.station_name ∈ s.station_history.map (fun x => x.station_name) ∧
        r.items_processed = sumItems s.station_history r.station_name ∧
        r.inventory_remaining = maxInventory s.station_history r.station_name ∧
        r.timestamp = maxTimestamp s.station_history r.station_name) ∧
      res.Pairwise (fun a b => b.items_processed ≤ a.items_processed) ∧
      ((stationNames s.station_history).length ≤ limit.toNat →
        ∀ n ∈ s.station_history.map (fun x => x.station_name),
          ∃ r ∈ res, r.station_name = n) := by
  have hperm := sortByDesc_perm (fun m => sumItems s.station_history m)
    (stationNames s.station_history)
  set rows := s.station_history with hrows
  set sorted := sortByDesc (fun m => sumItems rows m) (stationNames rows) with hsorted
  have hget : get_stations (some s) limit =
      .ok (sqlLimit limit (sorted.map (stationAgg rows))) := rfl
  refine ⟨_, hget, ?_, ?_, ?_, ?_, ?_⟩
  · rw [sqlLimit_of_nonneg hl, List.length_take, List.length_map, hperm.length_eq]
  · rw [sqlLimit_of_nonneg hl, ← List.map_take, List.map_map]
    rw [show ((fun r : StationRecord => r.station_name) ∘ stationAgg rows) =
      fun m : String => m from rfl]
    have hnd : sorted.Nodup :=
      hperm.nodup_iff.mpr (nodup_firstDedup _)
    have hnd2 : (sorted.take limit.toNat).Nodup :=
      hnd.sublist (List.take_sublist _ _)
    simpa using hnd2
  · intro r hr
    rw [sqlLimit_of_nonneg hl] at hr
    have hr2 : r ∈ sorted.map (stationAgg rows) := List.mem_of_mem_take hr
    obtain ⟨m, hm, rfl⟩ := List.mem_map.mp hr2
    have hm_names : m ∈ s.station_history.map (fun x => x.station_name) :=
      (mem_firstDedup _ _).mp (mem_sortByDesc.mp hm)
    exact ⟨hm_names, rfl, rfl, rfl⟩
  · rw [sqlLimit_of_nonneg hl]
    have hp : (sorted.map (stationAgg rows)).Pairwise
        (fun a b => b.items_processed ≤ a.items_processed) := by
      rw [List.pairwise_map]
      exact sortByDesc_pairwise _ _
    exact hp.sublist (List.take_sublist _ _)
  · intro hk n hn
    rw [sqlLimit_of_nonneg hl]
    have hfull : (sorted.map (stationAgg rows)).take limit.toNat =
        sorted.map (stationAgg rows) := by
      apply List.take_of_length_le
      rw [List.length_map, hperm.length_eq]
      exact hk
    rw [hfull]
    have hn_sorted : n ∈ sorted := mem_sortByDesc.mpr ((mem_firstDedup _ _).mpr hn)
    exact ⟨stationAgg rows n, List.mem_map_of_mem _ hn_sorted, rfl⟩

/-- Witness for C8 at the demonstration store with limit 10: the call
succeeds and returns one tuple per distinct station (both of them). -/
theorem C8_get_stations_witness :
    ∃ res, get_stations (some demoStore) 10 = .ok res ∧
      res.length = min (10 : Int).toNat (stationNames demoStore.station_history).length := by
  obtain ⟨res, h1, h2, _⟩ := C8_get_stations demoStore 10 (by norm_num)
  exact ⟨res, h1, h2⟩

end API
